import Mathlib

/-
  Verification development for the agent-chat backend.

  Shallow embedding of the payment/access-control core, the knowledge-base
  ranking, the tool-dispatch pipeline, the chat-history analyzer and the
  chat-text encryption utilities, translated from the JavaScript sources:

    src/services/dataService.js        (checkAgentAccess, hasUserPaidForAgent,
                                        updatePaymentStatus, ...)
    src/routes/payments.js             (success/failure webhooks, verify)
    src/services/paymentService.js     (createPayment)
    src/services/knowledgeBaseService.js (calculateRelevance, ranking)
    src/services/whisperService.js     (ToolRegistry.processQuery,
                                        analyzeChatHistory, crypto tool)
    src/utils/encryption.js            (encrypt, decrypt, isEncrypted)

  External collaborators (postgres, axios network calls, node crypto) are
  modelled as explicit inputs: database tables as lists, network lookups as
  oracle functions, exceptions as Except values.
-/

namespace AgentChat

/-! ## Basic string machinery (JS string primitives on explicit char lists) -/

/-- Substring test on char lists; mirrors JS String.prototype.includes. -/
def containsSubList (n : List Char) : List Char → Bool
  | [] => n.isEmpty
  | c :: t => n.isPrefixOf (c :: t) || containsSubList n t

/-- JS s.includes(n). -/
def jsIncludes (s n : String) : Bool :=
  containsSubList n.data s.data

/-- ASCII-ish lower-casing of a char list; models JS toLowerCase on the
inputs this code base handles. -/
def lowerL (l : List Char) : List Char := l.map Char.toLower

/-- JS s.toLowerCase(). -/
def jsToLower (s : String) : String := ⟨lowerL s.data⟩

/-- JS s.toUpperCase(). -/
def jsToUpper (s : String) : String := ⟨s.data.map Char.toUpper⟩

/-- Split a char list on every occurrence of a separator char; mirrors JS
String.prototype.split(sep) with a single-char separator (empty pieces kept). -/
def splitOnCharAux (sep : Char) : List Char → List Char → List String
  | [], acc => [⟨acc.reverse⟩]
  | c :: t, acc =>
    if c = sep then ⟨acc.reverse⟩ :: splitOnCharAux sep t []
    else splitOnCharAux sep t (c :: acc)

/-- JS s.split(sep) for a one-char separator. -/
def jsSplit (s : String) (sep : Char) : List String :=
  splitOnCharAux sep s.data []

/-- JS s.substring(0, n) (code-unit truncation modelled as char truncation). -/
def jsTake (s : String) (n : Nat) : String := ⟨s.data.take n⟩

/-! ## C1 / C4 — Access control decision (dataService.js, checkAgentAccess) -/

/-- Pricing record as resolved by getAgentPricing: role, parseFloat-ed
price (NaN already collapsed to 0 by `parseFloat(x) || 0`), currency, name. -/
structure AgentPricing where
  role : String
  priceAmount : ℚ
  priceCurrency : String
  name : String
deriving Repr, DecidableEq

/-- Result shape of checkAgentAccess. -/
structure AccessResult where
  allowed : Bool
  requiresPayment : Bool
  pricing : Option AgentPricing
deriving Repr, DecidableEq

/-- One row of the agent_payments table (the columns the access check reads). -/
structure PaymentRow where
  userId : String
  agentId : String
  status : String
deriving Repr, DecidableEq

/-- dataService.hasUserPaidForAgent: SELECT id FROM agent_payments WHERE
user_id = $1 AND agent_id = $2 AND status = "success" LIMIT 1 — existence. -/
def hasUserPaidForAgent (payments : List PaymentRow) (userId agentId : String) : Bool :=
  payments.any fun p => p.userId == userId && p.agentId == agentId && p.status == "success"

/-- The body of dataService.checkAgentAccess inside its try block.  The two
awaited lookups are passed in as Except values (ok = resolved, error =
rejected promise); the payment lookup is only forced on the paid branch,
as in the source. -/
def checkAgentAccessCore (pricingRes : Except String (Option AgentPricing))
    (paidRes : Except String Bool) : Except String AccessResult :=
  match pricingRes with
  | .error e => .error e
  | .ok none => .ok ⟨true, false, none⟩
  | .ok (some p) =>
    if p.role == "free" || p.priceAmount == 0 then
      .ok ⟨true, false, some p⟩
    else
      match paidRes with
      | .error e => .error e
      | .ok hasPaid => .ok ⟨hasPaid, !hasPaid, some p⟩

/-- dataService.checkAgentAccess including its catch block: on any error the
decision fails open with allowed=true, requiresPayment=false, pricing=null. -/
def checkAgentAccess (pricingRes : Except String (Option AgentPricing))
    (paidRes : Except String Bool) : AccessResult :=
  match checkAgentAccessCore pricingRes paidRes with
  | .ok r => r
  | .error _ => ⟨true, false, none⟩

/-- checkAgentAccess over a concrete database state: a resolved pricing row
(none = no pricing record) and the agent_payments table. -/
def checkAgentAccessDb (pricing : Option AgentPricing) (payments : List PaymentRow)
    (userId agentId : String) : AccessResult :=
  checkAgentAccess (.ok pricing) (.ok (hasUserPaidForAgent payments userId agentId))

/-- C1: with no pricing record, a free role, or a falsy priceAmount the
check allows access without payment; with role "paid" and positive price it
allows iff a success payment row exists for the exact (userId, agentId)
pair, and requiresPayment is the negation. -/
theorem checkAgentAccess_spec (pricing : Option AgentPricing)
    (payments : List PaymentRow) (userId agentId : String) :
    ((pricing = none ∨ ∃ p, pricing = some p ∧ (p.role = "free" ∨ p.priceAmount = 0)) →
      checkAgentAccessDb pricing payments userId agentId = ⟨true, false, pricing⟩) ∧
    (∀ p, pricing = some p → p.role = "paid" → 0 < p.priceAmount →
      ((checkAgentAccessDb pricing payments userId agentId).allowed = true ↔
        ∃ row ∈ payments, row.userId = userId ∧ row.agentId = agentId ∧
          row.status = "success") ∧
      (checkAgentAccessDb pricing payments userId agentId).requiresPayment =
        !(checkAgentAccessDb pricing payments userId agentId).allowed) := by
  constructor
  · rintro (rfl | ⟨p, rfl, hfree⟩)
    · rfl
    · have h : (p.role == "free" || p.priceAmount == 0) = true := by
        rcases hfree with h | h <;> simp [h]
      simp [checkAgentAccessDb, checkAgentAccess, checkAgentAccessCore, h]
  · rintro p rfl hrole hpos
    have h1 : (p.role == "free") = false := by
      rw [hrole]; decide
    have h2 : (p.priceAmount == 0) = false :=
      beq_eq_false_iff_ne.mpr (ne_of_gt hpos)
    have hfree : (p.role == "free" || p.priceAmount == 0) = false := by
      simp [h1, h2]
    constructor
    · simp only [checkAgentAccessDb, checkAgentAccess, checkAgentAccessCore, hfree,
        Bool.false_eq_true, if_false]
      simp only [hasUserPaidForAgent, List.any_eq_true]
      constructor
      · rintro ⟨row, hmem, h⟩
        refine ⟨row, hmem, ?_, ?_, ?_⟩ <;>
          simp only [Bool.and_eq_true, beq_iff_eq] at h <;> tauto
      · rintro ⟨row, hmem, hu, ha, hs⟩
        exact ⟨row, hmem, by simp [hu, ha, hs]⟩
    · simp only [checkAgentAccessDb, checkAgentAccess, checkAgentAccessCore, hfree,
        Bool.false_eq_true, if_false]

/-- Closed witness for C1 at a concrete paid agent and a success payment row. -/
theorem checkAgentAccess_spec_witness :
    (checkAgentAccessDb (some ⟨"paid", 5, "USD", "Coach"⟩)
      [⟨"u1", "a1", "success"⟩] "u1" "a1").allowed = true :=
  ((checkAgentAccess_spec (some ⟨"paid", 5, "USD", "Coach"⟩)
      [⟨"u1", "a1", "success"⟩] "u1" "a1").2
    ⟨"paid", 5, "USD", "Coach"⟩ rfl rfl (by norm_num)).1.mpr
    ⟨⟨"u1", "a1", "success"⟩, by simp, rfl, rfl, rfl⟩

/-- C4: if the pricing lookup errors, or the payment lookup reached on the
paid branch errors, checkAgentAccess returns the fail-open result
allowed=true, requiresPayment=false, pricing=null instead of propagating. -/
theorem checkAgentAccess_failOpen (pricingRes : Except String (Option AgentPricing))
    (paidRes : Except String Bool) :
    (∀ e, pricingRes = .error e →
      checkAgentAccess pricingRes paidRes = ⟨true, false, none⟩) ∧
    (∀ p e, pricingRes = .ok (some p) →
      ¬(p.role = "free" ∨ p.priceAmount = 0) → paidRes = .error e →
      checkAgentAccess pricingRes paidRes = ⟨true, false, none⟩) := by
  constructor
  · rintro e rfl; rfl
  · rintro p e rfl hpaid rfl
    push_neg at hpaid
    have hfree : (p.role == "free" || p.priceAmount == 0) = false := by
      simp [hpaid.1, hpaid.2]
    simp [checkAgentAccess, checkAgentAccessCore, hfree]

/-- Closed witness for C4: both failure modes at concrete inputs. -/
theorem checkAgentAccess_failOpen_witness :
    checkAgentAccess (.error "db down") (.ok true) = ⟨true, false, none⟩ ∧
    checkAgentAccess (.ok (some ⟨"paid", 5, "USD", "Coach"⟩)) (.error "db down") =
      ⟨true, false, none⟩ :=
  ⟨(checkAgentAccess_failOpen (.error "db down") (.ok true)).1 "db down" rfl,
   (checkAgentAccess_failOpen (.ok (some ⟨"paid", 5, "USD", "Coach"⟩))
      (.error "db down")).2 ⟨"paid", 5, "USD", "Coach"⟩ "db down" rfl
      (by rintro (h | h) <;> simp_all) rfl⟩

/-! ## C2 / C3 — Payment status transitions
    (dataService.updatePaymentStatus and routes/payments.js webhooks)

    One externalId maps to at most one agent_payments row; the state is that
    row (`none` = no record).  SQL CURRENT_TIMESTAMP is the event time `t`. -/

/-- The agent_payments columns touched by updatePaymentStatus. -/
structure PaymentRec where
  status : String
  paidAt : Option Nat
  updatedAt : Nat
  payerPhone : Option String
  metadata : List (String × String)
deriving Repr, DecidableEq

/-- jsonb `||` merge: keys from the update overwrite existing keys. -/
def mergeMeta (old more : List (String × String)) : List (String × String) :=
  old.filter (fun kv => !(more.any (fun kv2 => kv2.1 == kv.1))) ++ more

/-- dataService.updatePaymentStatus applied to the row matching externalId:
SET status unconditionally, updated_at = now, paid_at = now when the new
status is "success", payer_phone only when a truthy phone is supplied,
metadata merged when supplied. -/
def updatePaymentStatus (r : PaymentRec) (t : Nat) (status : String)
    (payerPhone : Option String) (metadata : Option (List (String × String))) :
    PaymentRec :=
  { status := status
    updatedAt := t
    paidAt := if status == "success" then some t else r.paidAt
    payerPhone :=
      match payerPhone with
      | some p => if p == "" then r.payerPhone else some p
      | none => r.payerPhone
    metadata :=
      match metadata with
      | some m => mergeMeta r.metadata m
      | none => r.metadata }

/-- GET /api/payments/webhook/success with a present externalId: 404 when no
record matches, otherwise writes status="success" (payerPhone from the
best-effort gateway re-check, `none` when that failed) and acknowledges 200. -/
def successWebhook (s : Option PaymentRec) (t : Nat) (phone : Option String) :
    Option PaymentRec × Nat :=
  match s with
  | none => (none, 404)
  | some r =>
    (some (updatePaymentStatus r t "success" phone
        (some [("webhookReceived", toString t)])), 200)

/-- GET /api/payments/webhook/failure with a present externalId: writes
status="failed" with failureReason = provided status or "unknown"; no
existence check, always acknowledges 200. -/
def failureWebhook (s : Option PaymentRec) (t : Nat) (status : Option String) :
    Option PaymentRec × Nat :=
  match s with
  | none => (none, 200)
  | some r =>
    (some (updatePaymentStatus r t "failed" none
        (some [("webhookReceived", toString t),
               ("failureReason",
                 match status with
                 | some x => if x == "" then "unknown" else x
                 | none => "unknown")])), 200)

/-- POST /api/payments/verify with a successful gateway response: updates the
record only when the gateway-reported collectStatus differs from the stored
status. -/
def verifyPayment (s : Option PaymentRec) (t : Nat) (collectStatus : String)
    (phone : Option String) : Option PaymentRec × Nat :=
  match s with
  | none => (none, 404)
  | some r =>
    if collectStatus == r.status then (some r, 200)
    else
      (some (updatePaymentStatus r t collectStatus phone
          (some [("verifiedAt", toString t)])), 200)

/-- A delivery touching one externalId: success webhook, failure webhook, or
manual verification (with the gateway-reported status). -/
inductive WebhookEvent where
  | succWh (t : Nat) (phone : Option String)
  | failWh (t : Nat) (status : Option String)
  | verify (t : Nat) (collectStatus : String) (phone : Option String)
deriving Repr, DecidableEq

/-- Dispatch one delivery against the stored state. -/
def stepEvent (s : Option PaymentRec) : WebhookEvent → Option PaymentRec × Nat
  | .succWh t phone => successWebhook s t phone
  | .failWh t status => failureWebhook s t status
  | .verify t cs phone => verifyPayment s t cs phone

/-- One delivery applied to an existing record (the record never disappears). -/
def stepRec (r : PaymentRec) (e : WebhookEvent) : PaymentRec :=
  ((stepEvent (some r) e).1).getD r

/-- The sequence of stored statuses along a delivery sequence. -/
def recTrace (r : PaymentRec) : List WebhookEvent → List String
  | [] => [r.status]
  | e :: rest => r.status :: recTrace (stepRec r e) rest

/-- The transition edges asserted by the claim: pending→success,
pending→failed, success→refunded, nothing out of failed. -/
def claimEdgeOk (a b : String) : Bool :=
  (a == "pending" && (b == "success" || b == "failed")) ||
  (a == "success" && b == "refunded")

/-- Every consecutive status pair is either unchanged or an allowed edge. -/
def chainOk : List String → Bool
  | a :: b :: rest => (a == b || claimEdgeOk a b) && chainOk (b :: rest)
  | _ => true

/-- C2 as stated: along every delivery sequence on an existing record created
in status "pending", the stored status only follows the claimed edges. -/
def claimC2Prop : Prop :=
  ∀ r : PaymentRec, r.status = "pending" →
    ∀ evs : List WebhookEvent, chainOk (recTrace r evs) = true

/-- C2 counterexample: a failure webhook followed by a success webhook drives
the stored status pending → failed → success; the code applies the
second write even though no edge leaves failed. -/
theorem claimC2_false : ¬ claimC2Prop := by
  intro h
  have := h ⟨"pending", none, 0, none, []⟩ rfl
    [.failWh 1 (some "cancelled"), .succWh 2 none]
  revert this
  decide

/-- C2 amended: status writes are unguarded — each delivery overwrites the
stored status with its own target ("success" for the success webhook,
"failed" for the failure webhook, the gateway-reported status for manual
verification) regardless of the previously stored status; in particular
"failed" → "success" is reachable. -/
theorem updatePaymentStatus_unconditional (r : PaymentRec) (t : Nat) :
    (∀ phone, (stepRec r (.succWh t phone)).status = "success") ∧
    (∀ st, (stepRec r (.failWh t st)).status = "failed") ∧
    (∀ cs phone, (stepRec r (.verify t cs phone)).status = cs) := by
  refine ⟨fun phone => rfl, fun st => rfl, fun cs phone => ?_⟩
  simp only [stepRec, stepEvent, verifyPayment]
  by_cases h : cs = r.status
  · simp [h]
  · simp [updatePaymentStatus, beq_eq_false_iff_ne.mpr h]

/-- C3 as stated: delivering the success webhook twice on an existing record
acknowledges 200, leaves status "success", and leaves paidAt unchanged by
the second delivery. -/
def claimC3Prop : Prop :=
  ∀ (r : PaymentRec) (t1 t2 : Nat) (ph1 ph2 : Option String),
    (successWebhook (successWebhook (some r) t1 ph1).1 t2 ph2).2 = 200 ∧
    ((successWebhook (successWebhook (some r) t1 ph1).1 t2 ph2).1.map
        PaymentRec.status) = some "success" ∧
    ((successWebhook (successWebhook (some r) t1 ph1).1 t2 ph2).1.bind
        PaymentRec.paidAt) =
      ((successWebhook (some r) t1 ph1).1.bind PaymentRec.paidAt)

/-- C3 counterexample: a second success delivery at a later time re-runs
`paid_at = CURRENT_TIMESTAMP`, so paidAt moves from the first delivery time
to the second (some 1 becomes some 2). -/
theorem claimC3_false : ¬ claimC3Prop := by
  intro h
  have := (h ⟨"pending", none, 0, none, []⟩ 1 2 none none).2.2
  revert this
  decide

/-- C3 amended: the second success delivery is still acknowledged with 200
and leaves the record in status "success", but it overwrites paidAt with the
second delivery timestamp (paidAt is unchanged only when both deliveries
carry the same database timestamp). -/
theorem successWebhook_twice (r : PaymentRec) (t1 t2 : Nat)
    (ph1 ph2 : Option String) :
    (successWebhook (successWebhook (some r) t1 ph1).1 t2 ph2).2 = 200 ∧
    ((successWebhook (successWebhook (some r) t1 ph1).1 t2 ph2).1.map
        PaymentRec.status) = some "success" ∧
    ((successWebhook (successWebhook (some r) t1 ph1).1 t2 ph2).1.bind
        PaymentRec.paidAt) = some t2 := by
  refine ⟨rfl, rfl, ?_⟩
  simp [successWebhook, updatePaymentStatus]

/-! ## C8 — Chat-text encryption (utils/encryption.js)

    aes-256-cbc and utf8 byte coding come from node crypto/Buffer
    primitives; they are modelled as an abstract cipher suite carrying the
    library inversion contract.  The repository-owned code — the hex
    encodings, the "iv:ciphertext" framing, the split/format checks — is
    embedded concretely. -/

/-- Lower-case hex digit for a value < 16 (Buffer.toString(hex)). -/
def hexDigit (n : Nat) : Char :=
  if n < 10 then Char.ofNat (48 + n) else Char.ofNat (87 + n)

/-- One byte as two lower-case hex digits. -/
def byteToHex (b : Nat) : List Char := [hexDigit (b / 16 % 16), hexDigit (b % 16)]

/-- Buffer.toString(hex) on a byte list. -/
def bytesToHex : List Nat → List Char
  | [] => []
  | b :: rest => byteToHex b ++ bytesToHex rest

/-- Case-insensitive hex digit value (none for a non-hex char). -/
def hexVal? (c : Char) : Option Nat :=
  if '0' ≤ c ∧ c ≤ '9' then some (c.toNat - 48)
  else if 'a' ≤ c ∧ c ≤ 'f' then some (c.toNat - 87)
  else if 'A' ≤ c ∧ c ≤ 'F' then some (c.toNat - 55)
  else none

/-- Buffer.from(s, hex) on a fully well-formed hex string. -/
def hexToBytes : List Char → Option (List Nat)
  | [] => some []
  | a :: b :: rest =>
    match hexVal? a, hexVal? b, hexToBytes rest with
    | some x, some y, some tail => some ((16 * x + y) :: tail)
    | _, _, _ => none
  | [_] => none

/-- The aes-256-cbc + utf8 primitive pair for one fixed key, with the
library inversion contract. -/
structure CipherSuite where
  enc : List Nat → String → List Nat
  dec : List Nat → List Nat → String
  dec_enc : ∀ iv m, dec iv (enc iv m) = m

/-- EncryptionService.encrypt: reject empty text, else emit
hex(iv) ++ ":" ++ hex(cipher(iv, text)); the random iv is an input. -/
def encrypt (cs : CipherSuite) (iv : List Nat) (text : String) :
    Except String String :=
  if text == "" then .error "Failed to encrypt message"
  else .ok ⟨bytesToHex iv ++ ':' :: bytesToHex (cs.enc iv text)⟩

/-- EncryptionService.decrypt: reject empty input, split on ':', require
exactly two parts, hex-decode both, run the decipher.  Any malformed input
surfaces as the catch-all error, as in the try/catch of the source. -/
def decrypt (cs : CipherSuite) (s : String) : Except String String :=
  if s == "" then .error "Failed to decrypt message"
  else
    match jsSplit s ':' with
    | [p0, p1] =>
      match hexToBytes p0.data, hexToBytes p1.data with
      | some iv, some ct => .ok (cs.dec iv ct)
      | _, _ => .error "Failed to decrypt message"
    | _ => .error "Failed to decrypt message"

/-- Char is a hex digit (the /^[0-9a-f]+$/i test, per char). -/
def isHexChar (c : Char) : Bool := (hexVal? c).isSome

/-- EncryptionService.isEncrypted: non-empty string splitting on ':' into
exactly two parts, each a non-empty all-hex string. -/
def isEncrypted (s : String) : Bool :=
  if s == "" then false
  else
    let parts := jsSplit s ':'
    parts.length == 2 &&
      parts.all (fun p => !p.data.isEmpty && p.data.all isHexChar)

/-! Helper lemmas for C8. -/

theorem hexVal?_hexDigit : ∀ n, n < 16 → hexVal? (hexDigit n) = some n := by
  decide

theorem hexDigit_ne_colon : ∀ n, n < 16 → hexDigit n ≠ ':' := by
  decide

theorem bytesToHex_mem {bs : List Nat} {c : Char} (h : c ∈ bytesToHex bs) :
    ∃ n, n < 16 ∧ c = hexDigit n := by
  induction bs with
  | nil => simp [bytesToHex] at h
  | cons b rest ih =>
    simp only [bytesToHex, byteToHex, List.cons_append, List.nil_append,
      List.mem_cons] at h
    rcases h with rfl | rfl | h
    · exact ⟨b / 16 % 16, Nat.mod_lt _ (by norm_num), rfl⟩
    · exact ⟨b % 16, Nat.mod_lt _ (by norm_num), rfl⟩
    · exact ih h

theorem bytesToHex_ne_colon {bs : List Nat} {c : Char} (h : c ∈ bytesToHex bs) :
    c ≠ ':' := by
  obtain ⟨n, hn, rfl⟩ := bytesToHex_mem h
  exact hexDigit_ne_colon n hn

theorem hexToBytes_bytesToHex {bs : List Nat} (h : ∀ b ∈ bs, b < 256) :
    hexToBytes (bytesToHex bs) = some bs := by
  induction bs with
  | nil => rfl
  | cons b rest ih =>
    have hb : b < 256 := h b (List.mem_cons_self b rest)
    have hrest := ih fun x hx => h x (List.mem_cons_of_mem b hx)
    have h1 : hexVal? (hexDigit (b / 16 % 16)) = some (b / 16 % 16) :=
      hexVal?_hexDigit _ (Nat.mod_lt _ (by norm_num))
    have h2 : hexVal? (hexDigit (b % 16)) = some (b % 16) :=
      hexVal?_hexDigit _ (Nat.mod_lt _ (by norm_num))
    have hdiv : b / 16 % 16 = b / 16 := Nat.mod_eq_of_lt (by omega)
    have hval : 16 * (b / 16 % 16) + b % 16 = b := by
      rw [hdiv]; omega
    simp [bytesToHex, byteToHex, hexToBytes, h1, h2, hrest, hval]

theorem splitOnCharAux_no_sep {sep : Char} {l : List Char}
    (h : ∀ c ∈ l, c ≠ sep) (acc : List Char) :
    splitOnCharAux sep l acc = [⟨acc.reverse ++ l⟩] := by
  induction l generalizing acc with
  | nil => simp [splitOnCharAux]
  | cons c t ih =>
    have hc : c ≠ sep := h c (List.mem_cons_self c t)
    have ht : ∀ x ∈ t, x ≠ sep := fun x hx => h x (List.mem_cons_of_mem c hx)
    simp only [splitOnCharAux, if_neg hc, ih ht]
    simp

theorem splitOnCharAux_mid {sep : Char} {a b : List Char}
    (ha : ∀ c ∈ a, c ≠ sep) (hb : ∀ c ∈ b, c ≠ sep) (acc : List Char) :
    splitOnCharAux sep (a ++ sep :: b) acc = [⟨acc.reverse ++ a⟩, ⟨b⟩] := by
  induction a generalizing acc with
  | nil =>
    simp [splitOnCharAux, splitOnCharAux_no_sep hb]
  | cons c t ih =>
    have hc : c ≠ sep := ha c (List.mem_cons_self c t)
    have ht : ∀ x ∈ t, x ≠ sep := fun x hx => ha x (List.mem_cons_of_mem c hx)
    rw [List.cons_append]
    simp only [splitOnCharAux, if_neg hc]
    rw [ih ht (c :: acc)]
    simp

theorem splitOnCharAux_ne_nil (sep : Char) (l : List Char) :
    ∀ acc, splitOnCharAux sep l acc ≠ [] := by
  induction l with
  | nil => intro acc; simp [splitOnCharAux]
  | cons c t ih =>
    intro acc
    by_cases hc : c = sep
    · subst hc; simp [splitOnCharAux]
    · simp only [splitOnCharAux, if_neg hc]
      exact ih (c :: acc)

/-- Joining the pieces of a split with the separator. -/
def joinSep (sep : Char) : List String → List Char
  | [] => []
  | [p] => p.data
  | p :: rest => p.data ++ sep :: joinSep sep rest

theorem joinSep_splitOnCharAux (sep : Char) (l : List Char) :
    ∀ acc, joinSep sep (splitOnCharAux sep l acc) = acc.reverse ++ l := by
  induction l with
  | nil => intro acc; simp [splitOnCharAux, joinSep]
  | cons c t ih =>
    intro acc
    by_cases hc : c = sep
    · subst hc
      simp only [splitOnCharAux, if_pos rfl]
      obtain ⟨p, rest, hpr⟩ : ∃ p rest, splitOnCharAux c t [] = p :: rest := by
        match h : splitOnCharAux c t [] with
        | [] => exact absurd h (splitOnCharAux_ne_nil c t [])
        | p :: rest => exact ⟨p, rest, rfl⟩
      rw [hpr]
      have hj := ih []
      rw [hpr] at hj
      simp only [List.reverse_nil, List.nil_append] at hj
      simp only [joinSep, hj]
    · simp only [splitOnCharAux, if_neg hc]
      rw [ih (c :: acc)]
      simp

/-- C8: decrypting an encryption of any non-empty message under the same
cipher suite returns the message exactly (for a 16-byte iv and byte-valued
cipher output), and isEncrypted accepts exactly the strings of the shape
nonempty-hex ++ ":" ++ nonempty-hex. -/
theorem encryption_roundtrip_and_shape (cs : CipherSuite) (iv : List Nat)
    (text : String) (s : String) :
    (text ≠ "" → (∀ x ∈ iv, x < 256) → (∀ x ∈ cs.enc iv text, x < 256) →
      ∃ e, encrypt cs iv text = .ok e ∧ decrypt cs e = .ok text) ∧
    (isEncrypted s = true ↔
      ∃ a b : List Char, s.data = a ++ ':' :: b ∧ a ≠ [] ∧ b ≠ [] ∧
        (∀ c ∈ a, isHexChar c = true) ∧ (∀ c ∈ b, isHexChar c = true)) := by
  constructor
  · intro hne hiv henc
    have hts : (text == "") = false := by
      simpa using hne
    refine ⟨⟨bytesToHex iv ++ ':' :: bytesToHex (cs.enc iv text)⟩, ?_, ?_⟩
    · simp [encrypt, hts]
    · have hnonempty :
          (⟨bytesToHex iv ++ ':' :: bytesToHex (cs.enc iv text)⟩ : String) ≠ "" := by
        intro hcontra
        have : (bytesToHex iv ++ ':' :: bytesToHex (cs.enc iv text)) =
            ([] : List Char) := congrArg String.data hcontra
        simp at this
      have hbs : ((⟨bytesToHex iv ++ ':' :: bytesToHex (cs.enc iv text)⟩ : String)
          == "") = false := by
        simpa using hnonempty
      simp only [decrypt, hbs, Bool.false_eq_true, if_false]
      have hsplit :
          jsSplit ⟨bytesToHex iv ++ ':' :: bytesToHex (cs.enc iv text)⟩ ':' =
            [⟨bytesToHex iv⟩, ⟨bytesToHex (cs.enc iv text)⟩] := by
        simp only [jsSplit]
        exact splitOnCharAux_mid (fun c hc => bytesToHex_ne_colon hc)
          (fun c hc => bytesToHex_ne_colon hc) []
      rw [hsplit]
      simp only [hexToBytes_bytesToHex hiv, hexToBytes_bytesToHex henc]
      rw [cs.dec_enc]
  · constructor
    · intro h
      have hbs : (s == "") = false := by
        by_contra hcon
        rw [Bool.not_eq_false] at hcon
        simp only [isEncrypted, hcon, if_true] at h
        exact Bool.false_ne_true h
      simp only [isEncrypted, hbs, Bool.false_eq_true, if_false,
        Bool.and_eq_true, beq_iff_eq] at h
      obtain ⟨hlen, hall⟩ := h
      obtain ⟨p0, p1, hps⟩ := List.length_eq_two.mp hlen
      rw [hps] at hall
      simp only [List.all_cons, List.all_nil, Bool.and_true,
        Bool.and_eq_true] at hall
      obtain ⟨⟨h0e, h0h⟩, h1e, h1h⟩ := hall
      refine ⟨p0.data, p1.data, ?_, ?_, ?_, ?_, ?_⟩
      · have hjoin := joinSep_splitOnCharAux ':' s.data []
        simp only [jsSplit] at hps
        rw [hps] at hjoin
        simp only [joinSep, List.reverse_nil, List.nil_append] at hjoin
        exact hjoin.symm
      · simpa using h0e
      · simpa using h1e
      · exact fun c hc => List.all_eq_true.mp h0h c hc
      · exact fun c hc => List.all_eq_true.mp h1h c hc
    · rintro ⟨a, b, hdata, hae, hbe, hah, hbh⟩
      have hacolon : ∀ c ∈ a, c ≠ ':' := by
        intro c hc hcc
        have hx := hah c hc
        rw [hcc] at hx
        exact absurd hx (by decide)
      have hbcolon : ∀ c ∈ b, c ≠ ':' := by
        intro c hc hcc
        have hx := hbh c hc
        rw [hcc] at hx
        exact absurd hx (by decide)
      have hnee : s ≠ "" := by
        intro hcontra
        have hd : s.data = [] := by rw [hcontra]
        rw [hdata] at hd
        exact (List.cons_ne_nil ':' b) (List.append_eq_nil.mp hd).2
      have hbs : (s == "") = false := by simpa using hnee
      have hs2 : s = ⟨a ++ ':' :: b⟩ := by
        cases s with
        | mk d =>
          have : d = a ++ ':' :: b := hdata
          rw [this]
      simp only [isEncrypted, hbs, Bool.false_eq_true, if_false]
      have hsplit : jsSplit s ':' = [⟨a⟩, ⟨b⟩] := by
        rw [hs2]
        exact splitOnCharAux_mid hacolon hbcolon []
      rw [hsplit]
      simp only [List.length_cons, List.length_nil, List.all_cons, List.all_nil,
        Bool.and_true, Bool.and_eq_true]
      refine ⟨rfl, ⟨?_, List.all_eq_true.mpr fun c hc => hah c hc⟩,
              ⟨?_, List.all_eq_true.mpr fun c hc => hbh c hc⟩⟩
      · simpa using hae
      · simpa using hbe

/-- A concrete cipher suite (an invertible byte coding standing in for the
aes-256-cbc + utf8 pair) used to witness the round-trip theorem. -/
def demoSuite : CipherSuite where
  enc := fun _ m => m.data.map Char.toNat
  dec := fun _ bs => ⟨bs.map Char.ofNat⟩
  dec_enc := by
    intro iv m
    cases m
    simp [List.map_map, Function.comp_def, Char.ofNat_toNat]

/-- Closed witness for C8 at a concrete message and iv. -/
theorem encryption_roundtrip_witness :
    ∃ e, encrypt demoSuite (List.replicate 16 0) "hi" = .ok e ∧
      decrypt demoSuite e = .ok "hi" :=
  (encryption_roundtrip_and_shape demoSuite (List.replicate 16 0) "hi" "ab:cd").1
    (by decide) (by decide) (by decide)

/-! ## C5 — Payment gateway adapter (paymentService.js, createPayment)

    createPayment is called with a JS options object whose fields are
    dynamically typed; a small JS value model captures the truthiness and
    typeof checks.  The returned payload is the body the adapter would POST
    to the provider — an `.error` result means the call was rejected before
    any network request was issued. -/

/-- Dynamic JS value (finite numbers as rationals; NaN explicit). -/
inductive JsVal where
  | undef
  | jsNull
  | num (q : ℚ)
  | nan
  | str (s : String)
  | boolVal (b : Bool)
deriving Repr, DecidableEq

/-- JS truthiness. -/
def JsVal.truthy : JsVal → Bool
  | .undef => false
  | .jsNull => false
  | .nan => false
  | .num q => q != 0
  | .str s => s != ""
  | .boolVal b => b

/-- typeof v === "string". -/
def JsVal.isStr : JsVal → Bool
  | .str _ => true
  | _ => false

/-- String(v) (number rendering is exercised only on integral values here). -/
def JsVal.toStr : JsVal → String
  | .undef => "undefined"
  | .jsNull => "null"
  | .nan => "NaN"
  | .num q => if q.den = 1 then toString q.num else toString q
  | .str s => s
  | .boolVal b => if b then "true" else "false"

def isDig (c : Char) : Bool := '0' ≤ c && c ≤ '9'

def natOfDigits (l : List Char) : Nat :=
  l.foldl (fun a c => 10 * a + (c.toNat - 48)) 0

/-- JS parseFloat on a string: skip leading whitespace, optional sign,
longest decimal-literal front part, optional exponent; none = NaN. -/
def jsParseFloatChars (l : List Char) : Option ℚ :=
  let l1 := l.dropWhile (fun c => c.isWhitespace)
  let sgn : ℚ := match l1 with
    | '-' :: _ => -1
    | _ => 1
  let l2 : List Char := match l1 with
    | '-' :: t => t
    | '+' :: t => t
    | _ => l1
  let ipart := l2.takeWhile isDig
  let l3 := l2.dropWhile isDig
  let fpart : List Char := match l3 with
    | '.' :: t => t.takeWhile isDig
    | _ => []
  let l4 : List Char := match l3 with
    | '.' :: t => t.dropWhile isDig
    | _ => l3
  if ipart.isEmpty && fpart.isEmpty then none
  else
    let mant : ℚ :=
      (natOfDigits ipart : ℚ) + (natOfDigits fpart : ℚ) / (10 : ℚ) ^ fpart.length
    let e : ℤ := match l4 with
      | 'e' :: '-' :: d => if (d.takeWhile isDig).isEmpty then 0
          else -(natOfDigits (d.takeWhile isDig) : ℤ)
      | 'E' :: '-' :: d => if (d.takeWhile isDig).isEmpty then 0
          else -(natOfDigits (d.takeWhile isDig) : ℤ)
      | 'e' :: '+' :: d => if (d.takeWhile isDig).isEmpty then 0
          else (natOfDigits (d.takeWhile isDig) : ℤ)
      | 'E' :: '+' :: d => if (d.takeWhile isDig).isEmpty then 0
          else (natOfDigits (d.takeWhile isDig) : ℤ)
      | 'e' :: d => if (d.takeWhile isDig).isEmpty then 0
          else (natOfDigits (d.takeWhile isDig) : ℤ)
      | 'E' :: d => if (d.takeWhile isDig).isEmpty then 0
          else (natOfDigits (d.takeWhile isDig) : ℤ)
      | _ => 0
    some (sgn * mant * (10 : ℚ) ^ e)

/-- JS parseFloat on a dynamic value (non-strings coerce to non-numeric
strings except numbers themselves). -/
def jsParseFloat : JsVal → Option ℚ
  | .num q => some q
  | .str s => jsParseFloatChars s.data
  | _ => none

/-- PaymentService.isValidCurrency: currency?.toUpperCase() member of
USD/LBP/AED; a non-string never validates (in JS a non-null non-string
throws a TypeError here — either way the call is rejected pre-network). -/
def isValidCurrency : JsVal → Bool
  | .str s => jsToUpper s == "USD" || jsToUpper s == "LBP" || jsToUpper s == "AED"
  | _ => false

/-- .replace(/[<>]/g, ""). -/
def stripAngles (s : String) : String :=
  ⟨s.data.filter (fun c => c ≠ '<' ∧ c ≠ '>')⟩

/-- The three env-derived configuration values (none = unset). -/
structure PaymentConfig where
  paymentApiUrl : Option String
  backendUrl : Option String
  frontendUrl : Option String
deriving Repr, DecidableEq

/-- JS falsiness of an env string. -/
def cfgFalsy : Option String → Bool
  | none => true
  | some s => s == ""

/-- `x || d` on an optional string. -/
def orDefault (o : Option String) (d : String) : String :=
  match o with
  | some u => if u == "" then d else u
  | none => d

/-- The destructured options object of createPayment. -/
structure CreatePaymentArgs where
  userId : JsVal
  agentId : JsVal
  amount : JsVal
  currency : JsVal
  agentName : JsVal
  paymentRecordId : JsVal
  successRedirectUrl : Option String
  failureRedirectUrl : Option String
deriving Repr, DecidableEq

/-- Destructuring default `currency = "USD"` (applies to undefined only). -/
def effCurrency (args : CreatePaymentArgs) : JsVal :=
  match args.currency with
  | .undef => .str "USD"
  | v => v

/-- The body createPayment POSTs to `PAYMENT_API_URL/payments`. -/
structure PaymentPayload where
  amount : ℚ
  currency : String
  invoice : String
  externalId : JsVal
  successCallbackUrl : String
  failureCallbackUrl : String
  successRedirectUrl : String
  failureRedirectUrl : String
deriving Repr, DecidableEq

/-- PaymentService.createPayment up to the provider POST: config check,
input validation in source order, then payload construction.  `.error`
means rejected before any network call. -/
def createPayment (cfg : PaymentConfig) (args : CreatePaymentArgs) :
    Except String PaymentPayload :=
  if cfgFalsy cfg.paymentApiUrl then
    .error "PAYMENT_API_URL environment variable is not configured"
  else if cfgFalsy cfg.backendUrl then
    .error "BACKEND_URL environment variable is not configured"
  else if cfgFalsy cfg.frontendUrl then
    .error "FRONTEND_URL environment variable is not configured"
  else if !args.userId.truthy || !args.userId.isStr then
    .error "Invalid userId: must be a non-empty string"
  else if !args.agentId.truthy || !args.agentId.isStr then
    .error "Invalid agentId: must be a non-empty string"
  else if !args.amount.truthy ||
      (jsParseFloat args.amount).elim true (fun q => decide (q ≤ 0)) then
    .error "Invalid amount: must be a positive number"
  else if !isValidCurrency (effCurrency args) then
    .error "Invalid currency: must be USD, LBP, or AED"
  else if !args.paymentRecordId.truthy then
    .error "Invalid paymentRecordId: required for payment tracking"
  else
    .ok
      { amount := (jsParseFloat args.amount).getD 0
        currency := jsToUpper ((effCurrency args).toStr)
        invoice := "Agent Access: " ++
          (if args.agentName.truthy then stripAngles (jsTake args.agentName.toStr 100)
           else jsTake args.agentId.toStr 255) ++
          " - User: " ++ jsTake args.userId.toStr 255
        externalId := args.paymentRecordId
        successCallbackUrl :=
          orDefault cfg.backendUrl "" ++ "/api/payments/webhook/success"
        failureCallbackUrl :=
          orDefault cfg.backendUrl "" ++ "/api/payments/webhook/failure"
        successRedirectUrl :=
          orDefault args.successRedirectUrl
            (orDefault cfg.frontendUrl "" ++ "/payment/success")
        failureRedirectUrl :=
          orDefault args.failureRedirectUrl
            (orDefault cfg.frontendUrl "" ++ "/payment/failed") }

/-- An if-chain of validations errs when a later stage errs. -/
theorem errIfLater {c : Bool} {s : String} {x : Except String PaymentPayload}
    (h : ∃ e, x = .error e) :
    ∃ e, (if c then Except.error s else x) = .error e := by
  cases c
  · simpa using h
  · exact ⟨s, rfl⟩

/-- An if-chain of validations errs when its guard fires. -/
theorem errIfHere {c : Bool} {s : String} {x : Except String PaymentPayload}
    (h : c = true) :
    ∃ e, (if c then Except.error s else x) = .error e :=
  ⟨s, by rw [if_pos h]⟩

/-- C5: createPayment rejects (no payload, hence no network call) a
missing/non-string userId or agentId, a non-numeric or non-positive amount,
a currency outside USD/LBP/AED, and a missing paymentRecordId; on valid
input the payload upper-cases the currency, echoes paymentRecordId as
externalId, and builds the invoice from the sanitized agent name and the
truncated userId. -/
theorem createPayment_spec (cfg : PaymentConfig) (args : CreatePaymentArgs) :
    ((args.userId.truthy && args.userId.isStr) = false →
      ∃ e, createPayment cfg args = .error e) ∧
    ((args.agentId.truthy && args.agentId.isStr) = false →
      ∃ e, createPayment cfg args = .error e) ∧
    ((jsParseFloat args.amount = none ∨ ∃ q, jsParseFloat args.amount = some q ∧ q ≤ 0) →
      ∃ e, createPayment cfg args = .error e) ∧
    (isValidCurrency (effCurrency args) = false →
      ∃ e, createPayment cfg args = .error e) ∧
    (args.paymentRecordId.truthy = false →
      ∃ e, createPayment cfg args = .error e) ∧
    (∀ uid cur q,
      cfgFalsy cfg.paymentApiUrl = false → cfgFalsy cfg.backendUrl = false →
      cfgFalsy cfg.frontendUrl = false →
      args.userId = .str uid → uid ≠ "" →
      args.agentId.truthy = true → args.agentId.isStr = true →
      args.amount.truthy = true → jsParseFloat args.amount = some q → 0 < q →
      effCurrency args = .str cur → isValidCurrency (.str cur) = true →
      args.paymentRecordId.truthy = true →
      createPayment cfg args = .ok
        { amount := q
          currency := jsToUpper cur
          invoice := "Agent Access: " ++
            (if args.agentName.truthy then stripAngles (jsTake args.agentName.toStr 100)
             else jsTake args.agentId.toStr 255) ++ " - User: " ++ jsTake uid 255
          externalId := args.paymentRecordId
          successCallbackUrl :=
            orDefault cfg.backendUrl "" ++ "/api/payments/webhook/success"
          failureCallbackUrl :=
            orDefault cfg.backendUrl "" ++ "/api/payments/webhook/failure"
          successRedirectUrl :=
            orDefault args.successRedirectUrl
              (orDefault cfg.frontendUrl "" ++ "/payment/success")
          failureRedirectUrl :=
            orDefault args.failureRedirectUrl
              (orDefault cfg.frontendUrl "" ++ "/payment/failed") }) := by
  refine ⟨?_, ?_, ?_, ?_, ?_, ?_⟩
  · intro h
    rw [Bool.and_eq_false_iff] at h
    have hcond : (!args.userId.truthy || !args.userId.isStr) = true := by
      rcases h with h | h <;> simp [h]
    simp only [createPayment]
    apply errIfLater; apply errIfLater; apply errIfLater
    exact errIfHere hcond
  · intro h
    rw [Bool.and_eq_false_iff] at h
    have hcond : (!args.agentId.truthy || !args.agentId.isStr) = true := by
      rcases h with h | h <;> simp [h]
    simp only [createPayment]
    apply errIfLater; apply errIfLater; apply errIfLater; apply errIfLater
    exact errIfHere hcond
  · intro h
    have hcond : (!args.amount.truthy ||
        (jsParseFloat args.amount).elim true (fun q => decide (q ≤ 0))) = true := by
      rcases h with h | ⟨q, hq, hle⟩
      · rw [h]
        simp [Option.elim]
      · rw [hq]
        simp [Option.elim, hle]
    simp only [createPayment]
    apply errIfLater; apply errIfLater; apply errIfLater; apply errIfLater
    apply errIfLater
    exact errIfHere hcond
  · intro h
    have hcond : (!isValidCurrency (effCurrency args)) = true := by simp [h]
    simp only [createPayment]
    apply errIfLater; apply errIfLater; apply errIfLater; apply errIfLater
    apply errIfLater; apply errIfLater
    exact errIfHere hcond
  · intro h
    have hcond : (!args.paymentRecordId.truthy) = true := by simp [h]
    simp only [createPayment]
    apply errIfLater; apply errIfLater; apply errIfLater; apply errIfLater
    apply errIfLater; apply errIfLater; apply errIfLater
    exact errIfHere hcond
  · intro uid cur q hc1 hc2 hc3 huid huidne hat hais hamt hpf hpos hcur hcv hrec
    have huidt : args.userId.truthy = true := by
      rw [huid]; simpa [JsVal.truthy] using huidne
    have huids : args.userId.isStr = true := by rw [huid]; rfl
    have h4 : (!args.userId.truthy || !args.userId.isStr) = false := by
      simp [huidt, huids]
    have h5 : (!args.agentId.truthy || !args.agentId.isStr) = false := by
      simp [hat, hais]
    have h6 : (!args.amount.truthy ||
        (jsParseFloat args.amount).elim true (fun q => decide (q ≤ 0))) = false := by
      rw [hpf]
      simp [hamt, Option.elim, not_le.mpr hpos]
    have h7 : (!isValidCurrency (effCurrency args)) = false := by
      rw [hcur]
      simp [hcv]
    have h8 : (!args.paymentRecordId.truthy) = false := by simp [hrec]
    simp only [createPayment, hc1, hc2, hc3, h4, h5, h6, h7, h8,
      Bool.false_eq_true, if_false]
    rw [hpf, hcur, huid]
    rfl

/-- Closed witness for C5: the spec scenario — userId "u1", amount 5,
currency "usd", agentName "Coach", paymentRecordId 42 — yields a payload
with currency "USD", externalId 42, and an invoice containing "Coach" and
"u1". -/
theorem createPayment_spec_witness :
    ∃ p, createPayment
        ⟨some "https://pay.example", some "https://api.example", some "https://app.example"⟩
        ⟨.str "u1", .str "a1", .num 5, .str "usd", .str "Coach", .num 42, none, none⟩ =
        .ok p ∧
      p.currency = "USD" ∧ p.externalId = .num 42 ∧
      jsIncludes p.invoice "Coach" = true ∧ jsIncludes p.invoice "u1" = true := by
  have h := (createPayment_spec
      ⟨some "https://pay.example", some "https://api.example", some "https://app.example"⟩
      ⟨.str "u1", .str "a1", .num 5, .str "usd", .str "Coach", .num 42, none, none⟩).2.2.2.2.2
      "u1" "usd" 5 (by decide) (by decide) (by decide) rfl (by decide) (by decide) rfl
      (by decide) rfl (by norm_num) rfl (by decide) (by decide)
  exact ⟨_, h, by decide, rfl, by decide, by decide⟩

/-! ## C6 — Knowledge-base relevance ranking
    (knowledgeBaseService.js, calculateRelevance / getKnowledgeForQuery) -/

/-- The S3 listing fields the ranking reads (LastModified as epoch millis). -/
structure S3File where
  key : String
  size : Int
  lastModifiedMs : Int
deriving Repr, DecidableEq

/-- KnowledgeBaseService.calculateRelevance, translated statement by
statement: +10 full-query substring, +3 per matched term of length > 2,
then the resume/cv/profile/bio bonuses. -/
def calculateRelevance (fileName query : String) : Nat :=
  let fn := jsToLower fileName
  let q := jsToLower query
  let queryTerms := (jsSplit q ' ').filter (fun t => t.length > 2)
  let s0 := if jsIncludes fn q then 10 else 0
  let s1 := queryTerms.foldl (fun acc t => if jsIncludes fn t then acc + 3 else acc) s0
  let s2 := if jsIncludes fn "resume" then s1 + 5 else s1
  let s3 := if jsIncludes fn "cv" then s2 + 5 else s2
  let s4 := if jsIncludes fn "profile" then s3 + 3 else s3
  if jsIncludes fn "bio" then s4 + 3 else s4

/-- The relevance score as the claim words it: a sum of indicator bonuses. -/
def relevanceSpec (fileName query : String) : Nat :=
  (if jsIncludes (jsToLower fileName) (jsToLower query) then 10 else 0) +
  3 * ((jsSplit (jsToLower query) ' ').filter (fun t => t.length > 2)).countP
        (jsIncludes (jsToLower fileName)) +
  (if jsIncludes (jsToLower fileName) "resume" then 5 else 0) +
  (if jsIncludes (jsToLower fileName) "cv" then 5 else 0) +
  (if jsIncludes (jsToLower fileName) "profile" then 3 else 0) +
  (if jsIncludes (jsToLower fileName) "bio" then 3 else 0)

/-- The sort comparator of getKnowledgeForQuery: relevance descending, then
Size descending, then LastModified descending. -/
def fileCmp (query : String) (a b : S3File) : Int :=
  if calculateRelevance a.key query ≠ calculateRelevance b.key query then
    (calculateRelevance b.key query : Int) - (calculateRelevance a.key query : Int)
  else if a.size ≠ b.size then b.size - a.size
  else b.lastModifiedMs - a.lastModifiedMs

/-- relevantFiles.sort(comparator).slice(0, maxFiles); the V8 stable sort is
modelled by the stable mergeSort. -/
def rankFiles (query : String) (files : List S3File) (maxFiles : Nat) : List S3File :=
  (files.mergeSort (fun a b => decide (fileCmp query a b ≤ 0))).take maxFiles

/-- a is ranked at-or-before b: higher score, or equal score and larger
size, or equal on both and no older modification time. -/
def rankedBefore (query : String) (a b : S3File) : Prop :=
  calculateRelevance a.key query > calculateRelevance b.key query ∨
  (calculateRelevance a.key query = calculateRelevance b.key query ∧
    a.size > b.size) ∨
  (calculateRelevance a.key query = calculateRelevance b.key query ∧
    a.size = b.size ∧ a.lastModifiedMs ≥ b.lastModifiedMs)

theorem foldl_if_add (p : String → Bool) (k : Nat) :
    ∀ (l : List String) (n : Nat),
      l.foldl (fun acc t => if p t then acc + k else acc) n = n + k * l.countP p := by
  intro l
  induction l with
  | nil => intro n; simp
  | cons c t ih =>
    intro n
    by_cases h : p c = true
    · simp only [List.foldl_cons, h, if_true, ih, List.countP_cons, if_pos h]
      ring
    · rw [Bool.not_eq_true] at h
      simp only [List.foldl_cons, h, Bool.false_eq_true, if_false, ih,
        List.countP_cons, h]
      simp

theorem calculateRelevance_eq_spec (f q : String) :
    calculateRelevance f q = relevanceSpec f q := by
  simp only [calculateRelevance, relevanceSpec]
  rw [foldl_if_add]
  split_ifs <;> omega

theorem fileCmp_le_iff (query : String) (a b : S3File) :
    fileCmp query a b ≤ 0 ↔ rankedBefore query a b := by
  unfold fileCmp rankedBefore
  by_cases h1 : calculateRelevance a.key query ≠ calculateRelevance b.key query
  · rw [if_pos h1]
    constructor
    · intro h
      left
      omega
    · rintro (h | ⟨h, -⟩ | ⟨h, -⟩)
      · omega
      · exact absurd h h1
      · exact absurd h h1
  · rw [not_not] at h1
    rw [if_neg (not_not_intro h1)]
    by_cases h2 : a.size ≠ b.size
    · rw [if_pos h2]
      constructor
      · intro h
        right; left
        exact ⟨h1, by omega⟩
      · rintro (h | ⟨-, h⟩ | ⟨-, h, -⟩)
        · omega
        · omega
        · exact absurd h h2
    · rw [not_not] at h2
      rw [if_neg (not_not_intro h2)]
      constructor
      · intro h
        right; right
        exact ⟨h1, h2, by omega⟩
      · rintro (h | ⟨-, h⟩ | ⟨-, -, h⟩)
        · omega
        · omega
        · omega

theorem fileCmp_total (query : String) (a b : S3File) :
    fileCmp query a b ≤ 0 ∨ fileCmp query b a ≤ 0 := by
  unfold fileCmp
  by_cases h1 : calculateRelevance a.key query ≠ calculateRelevance b.key query
  · rw [if_pos h1, if_pos (Ne.symm h1)]
    omega
  · rw [not_not] at h1
    rw [if_neg (not_not_intro h1), if_neg (not_not_intro h1.symm)]
    by_cases h2 : a.size ≠ b.size
    · rw [if_pos h2, if_pos (Ne.symm h2)]
      omega
    · rw [not_not] at h2
      rw [if_neg (not_not_intro h2), if_neg (not_not_intro h2.symm)]
      omega

theorem rankedBefore_trans (query : String) (a b c : S3File)
    (hab : rankedBefore query a b) (hbc : rankedBefore query b c) :
    rankedBefore query a c := by
  unfold rankedBefore at *
  rcases hab with h | ⟨h1, h2⟩ | ⟨h1, h2, h3⟩ <;>
    rcases hbc with g | ⟨g1, g2⟩ | ⟨g1, g2, g3⟩ <;>
    first
      | (left; omega)
      | (right; left; constructor <;> omega)
      | (right; right; refine ⟨?_, ?_, ?_⟩ <;> omega)

/-- C6: the relevance score equals the claimed indicator sum; the ranked
candidate list is ordered by score descending with ties broken by size then
modification time descending; and for query "bitcoin" the resume file
strictly outscores the notes file. -/
theorem calculateRelevance_spec :
    (∀ f q, calculateRelevance f q = relevanceSpec f q) ∧
    (∀ query files (k : Nat),
      (rankFiles query files k).Pairwise (rankedBefore query)) ∧
    calculateRelevance "alice/resume_2023.pdf" "bitcoin" >
      calculateRelevance "alice/notes.txt" "bitcoin" := by
  refine ⟨calculateRelevance_eq_spec, ?_, by decide⟩
  intro query files k
  have hs := @List.sorted_mergeSort S3File
    (fun a b => decide (fileCmp query a b ≤ 0))
    (fun a b c hab hbc => by
      rw [decide_eq_true_iff] at *
      rw [fileCmp_le_iff] at *
      exact rankedBefore_trans query a b c hab hbc)
    (fun a b => by
      rcases fileCmp_total query a b with h | h <;> simp [h])
    files
  have hp : (files.mergeSort (fun a b => decide (fileCmp query a b ≤ 0))).Pairwise
      (rankedBefore query) := by
    refine hs.imp ?_
    intro a b h
    rw [decide_eq_true_iff, fileCmp_le_iff] at h
    exact h
  exact hp.sublist (List.take_sublist k _)

/-! ## C7 / C9 / C10 — Tool dispatch and history analyzer
    (whisperService.js, ToolRegistry)

    The intent regexes are alternations of literal substrings with the /i
    flag: they are embedded as case-insensitive substring tests.  The
    capture-group patterns (weather location, interest/topic extraction)
    are embedded with a small leftmost-match scanner with single-step
    backtracking over `\\s+` followed by a greedy character class, which is
    exactly the behavior of the source patterns (the class always contains
    whitespace).  Network lookups inside the tools are oracle functions in
    a ToolEnv; the chat-history store is an explicit list and every fetch
    from it is counted. -/

/-- JS \s (whitespace). -/
def isWsChar (c : Char) : Bool := c.isWhitespace

/-- JS [a-zA-Z]. -/
def isAsciiAlpha (c : Char) : Bool :=
  ('a' ≤ c && c ≤ 'z') || ('A' ≤ c && c ≤ 'Z')

/-- JS String.prototype.trim on a char list. -/
def jsTrimL (l : List Char) : List Char :=
  ((l.dropWhile isWsChar).reverse.dropWhile isWsChar).reverse

/-- Case-insensitive literal-prefix match; returns the rest on success. -/
def dropPrefixCI : List Char → List Char → Option (List Char)
  | [], l => some l
  | _ :: _, [] => none
  | p :: ps, c :: cs =>
    if p.toLower = c.toLower then dropPrefixCI ps cs else none

/-- Backtracking for `\s+(CLS+)`: having seen `k` whitespace chars after the
alternative, try consuming k, k-1, ..., 1 of them and capture the greedy
class run; the class contains whitespace, so this is the regex engine
search order. -/
def capBacktrack (cls : Char → Bool) (r : List Char) : Nat → Option (List Char)
  | 0 => none
  | k + 1 =>
    let cap := (r.drop (k + 1)).takeWhile cls
    if cap.isEmpty then capBacktrack cls r k else some cap

/-- Try one alternative at this position: literal, then `\s+`, then the
greedy class capture. -/
def matchAltAt (cls : Char → Bool) (l : List Char) (a : List Char) :
    Option (List Char) :=
  match dropPrefixCI a l with
  | none => none
  | some r => capBacktrack cls r (r.takeWhile isWsChar).length

/-- Try the alternatives in pattern order at this position. -/
def matchAnyAlt (cls : Char → Bool) (l : List Char) :
    List (List Char) → Option (List Char)
  | [] => none
  | a :: rest =>
    match matchAltAt cls l a with
    | some cap => some cap
    | none => matchAnyAlt cls l rest

/-- Leftmost match of `(?:alt1|alt2|...)\s+(CLS+)`, returning the capture. -/
def scanFirst (alts : List (List Char)) (cls : Char → Bool) :
    List Char → Option (List Char)
  | [] => none
  | c :: t =>
    match matchAnyAlt cls (c :: t) alts with
    | some cap => some cap
    | none => scanFirst alts cls t

/-- The location extraction of processQuery:
userInput.match of `(?:in|for|at)\s+([a-zA-Z\s]+)` with /i, trimmed. -/
def extractLocation (msg : String) : Option String :=
  (scanFirst ["in".data, "for".data, "at".data]
      (fun c => isAsciiAlpha c || isWsChar c) msg.data).map
    (fun cap => (⟨jsTrimL cap⟩ : String))

/-- A stored chat message (the fields the analyzer reads). -/
structure ChatMsg where
  user_id : String
  agent_id : String
  text : String
deriving Repr, DecidableEq

/-- `/lit1|lit2|.../i.test(msg)`: some literal occurs case-insensitively. -/
def testAlt (alts : List String) (msg : String) : Bool :=
  alts.any fun a => jsIncludes (jsToLower msg) (jsToLower a)

def personalQueries : List String :=
  ["describe me", "tell me about me", "what do you know about me",
   "my history", "our conversation", "what did we talk about",
   "remember when", "who am i"]

def conversationQueries : List String :=
  ["our chat", "previous conversation", "what we discussed", "earlier",
   "before", "last time", "history of our"]

def knowledgeTerms1 : List String :=
  ["tell me about", "explain", "what is", "how to", "tutorial", "document",
   "guide", "learn", "teach", "help me with"]

def knowledgeTerms2 : List String :=
  ["my documents", "my files", "my knowledge", "uploaded", "document",
   "pdf", "video", "audio"]

def cryptoTerms : List String :=
  ["bitcoin", "btc", "crypto", "cryptocurrency", "ethereum", "eth", "price"]

def newsTerms : List String := ["news", "latest", "breaking", "headlines"]

def weatherTerms : List String :=
  ["weather", "temperature", "forecast", "climate"]

def webSearchTerms : List String :=
  ["search", "find", "what is", "who is", "tell me about"]

/-- `[^.!?]` — the sentence-fragment class of the extraction patterns. -/
def sentCls (c : Char) : Bool := c ≠ '.' && c ≠ '!' && c ≠ '?'

/-- JS Set insertion: dedup, keep first-insertion order. -/
def insertUnique (l : List String) (s : String) : List String :=
  if l.contains s then l else l ++ [s]

/-- The interests/topics extraction over the messages sent by the user:
"i like|i love|i enjoy" and "about|regarding" followed by a sentence
fragment, on the lower-cased text, collected into two insertion-ordered
sets. -/
def collectPersonal (userMessages : List ChatMsg) : List String × List String :=
  userMessages.foldl
    (fun acc msg =>
      let text := jsToLower msg.text
      let acc1 :=
        if jsIncludes text "i like" || jsIncludes text "i love" ||
            jsIncludes text "i enjoy" then
          match scanFirst ["i like".data, "i love".data, "i enjoy".data]
              sentCls text.data with
          | some cap => (insertUnique acc.1 ⟨jsTrimL cap⟩, acc.2)
          | none => acc
        else acc
      if jsIncludes text "about" || jsIncludes text "regarding" then
        match scanFirst ["about".data, "regarding".data] sentCls text.data with
        | some cap => (acc1.1, insertUnique acc1.2 ⟨jsTrimL cap⟩)
        | none => acc1
      else acc1)
    ([], [])

/-- ToolRegistry._analyzeChatHistory.  `store` is the window returned by
DataService.getLatestMessages for the pair; the second component counts
the storage reads performed.  Note the source fetches the history BEFORE
testing the personal/conversational patterns. -/
def analyzeChatHistory (userInput userId agentId : String)
    (store : List ChatMsg) : String × Nat :=
  if userId == "" || agentId == "" then ("", 0)
  else
    let chatHistory := store
    if chatHistory.isEmpty then ("", 1)
    else if !testAlt personalQueries userInput &&
        !testAlt conversationQueries userInput then ("", 1)
    else
      let userMessages := chatHistory.filter fun m => m.user_id == userId
      let part1 :=
        if testAlt personalQueries userInput then
          let st := collectPersonal userMessages
          "Based on our conversation history:\n" ++
          (if st.1.length > 0 then
            "You\x27ve mentioned interest in: " ++
              String.intercalate ", " st.1 ++ "\n"
           else "") ++
          (if st.2.length > 0 then
            "Topics we\x27ve discussed: " ++ String.intercalate ", " st.2 ++ "\n"
           else "") ++
          "We\x27ve exchanged " ++ toString chatHistory.length ++
            " messages recently.\n"
        else ""
      let part2 :=
        if testAlt conversationQueries userInput then
          "Recent conversation context:\n" ++
          ((chatHistory.drop (chatHistory.length - 6)).foldl
            (fun acc m =>
              let sender := if m.user_id == userId then "You" else "I"
              let preview :=
                if m.text.length > 100 then jsTake m.text 100 ++ "..."
                else m.text
              acc ++ sender ++ ": " ++ preview ++ "\n") "")
        else ""
      (part1 ++ part2, 1)

/-- One tool invocation with the argument it was given. -/
inductive ToolCall where
  | cryptoCall (symbol : String)
  | newsCall (topic : Option String) (count : Nat)
  | weatherCall (location : String)
  | webCall (query : String)
deriving Repr, DecidableEq

/-- The external collaborators of processQuery: the chat-history window,
the two knowledge backends, the persona name, and the network tools
(modelled as oracles from arguments to their returned snippet text). -/
structure ToolEnv where
  store : List ChatMsg
  kbSearchResult : String
  legacyKb : Option (List String)
  personalityName : Option String
  cryptoOut : String → String
  newsOut : Option String → Nat → String
  weatherOut : String → String
  webOut : String → String

/-- _getCryptoPrice with its default parameter `symbol = "bitcoin"`; the
network fetch and price formatting are the oracle. -/
def getCryptoPrice (env : ToolEnv) (symbol : String := "bitcoin") :
    String × ToolCall :=
  (env.cryptoOut symbol, .cryptoCall symbol)

/-- _getNews with defaults `topic = null, count = 3`. -/
def getNews (env : ToolEnv) (topic : Option String := none) (count : Nat := 3) :
    String × ToolCall :=
  (env.newsOut topic count, .newsCall topic count)

/-- _getWeather. -/
def getWeather (env : ToolEnv) (location : String) : String × ToolCall :=
  (env.weatherOut location, .weatherCall location)

/-- _webSearch. -/
def webSearchTool (env : ToolEnv) (query : String) : String × ToolCall :=
  (env.webOut query, .webCall query)

/-- The context assembled by processQuery before tool detection: history
analysis (when both ids are present and truthy), the personal knowledge
base (on intent match, filtered by the not-found/unavailable markers), and
the legacy knowledge base (only when nothing has filled the context yet). -/
def preContext (env : ToolEnv) (userInput userId agentId : String) : String :=
  let ctx0 : String :=
    if userId != "" && agentId != "" then
      let historyContext :=
        (analyzeChatHistory userInput userId agentId env.store).1
      if historyContext != "" then historyContext ++ "\n" else ""
    else ""
  let needsKnowledgeSearch :=
    testAlt knowledgeTerms1 userInput || testAlt knowledgeTerms2 userInput
  let ctx1 :=
    if needsKnowledgeSearch && userId != "" then
      let knowledgeInfo := env.kbSearchResult
      if knowledgeInfo != "" &&
          !jsIncludes knowledgeInfo "No relevant information found" &&
          !jsIncludes knowledgeInfo "not available" &&
          !jsIncludes knowledgeInfo "temporarily unavailable" then
        ctx0 ++ "From your personal knowledge base:\n" ++ knowledgeInfo ++ "\n"
      else ctx0
    else ctx0
  match env.legacyKb with
  | some results =>
    if ctx1 == "" then
      if results.length > 0 then
        ctx1 ++ "From " ++
          (match env.personalityName with
           | some n => if n == "" then "AI" else n
           | none => "AI") ++ "\x27s knowledge base:\n" ++
          (results.foldl
            (fun acc content => acc ++ "- " ++ jsTake content 200 ++ "...\n")
            "") ++ "\n"
      else ctx1
    else ctx1
  | none => ctx1

/-- The weather location: first capture of `(?:in|for|at)\s+([a-zA-Z\s]+)`
trimmed, defaulting to "Beirut". -/
def resolvedLocation (userInput : String) : String :=
  match extractLocation userInput with
  | some loc => loc
  | none => "Beirut"

/-- The tool detection and execution phase of processQuery, starting from
the already-assembled context `pre`.  needsWebSearch is computed from the
pre-tool context, and the web search additionally re-checks that the
context is still empty after the other tools ran, as in the source. -/
def toolPhase (env : ToolEnv) (userInput : String) (pre : String) :
    String × List ToolCall :=
  let needsCrypto := testAlt cryptoTerms userInput
  let needsNews := testAlt newsTerms userInput
  let needsWeather := testAlt weatherTerms userInput
  let needsWebSearch := testAlt webSearchTerms userInput && pre == ""
  let s4 :=
    if needsCrypto then
      let r := getCryptoPrice env
      (pre ++ "Market info: " ++ r.1 ++ "\n", [r.2])
    else (pre, [])
  let s5 :=
    if needsNews then
      let r := getNews env none 3
      (s4.1 ++ "News: " ++ r.1 ++ "\n", s4.2 ++ [r.2])
    else s4
  let s6 :=
    if needsWeather then
      let r := getWeather env (resolvedLocation userInput)
      (s5.1 ++ "Weather: " ++ r.1 ++ "\n", s5.2 ++ [r.2])
    else s5
  if needsWebSearch && s6.1 == "" then
    let r := webSearchTool env userInput
    (s6.1 ++ "Web search: " ++ r.1 ++ "\n", s6.2 ++ [r.2])
  else s6

/-- ToolRegistry.processQuery: context assembly, then tool dispatch;
returns the final context string and the trace of tool invocations. -/
def processQuery (env : ToolEnv) (userInput userId agentId : String) :
    String × List ToolCall :=
  toolPhase env userInput (preContext env userInput userId agentId)

/-! Helper lemmas for C7/C9/C10. -/

theorem data_eq_nil_iff (s : String) : s.data = [] ↔ s = "" := by
  cases s with
  | mk d =>
    constructor
    · intro h
      rw [show d = ([] : List Char) from h]
    · intro h
      rw [h]

theorem append_eq_empty_iff (a b : String) : a ++ b = "" ↔ a = "" ∧ b = "" := by
  constructor
  · intro h
    have h2 : (a ++ b).data = [] := by rw [h]
    rw [String.data_append] at h2
    have h3 := List.append_eq_nil.mp h2
    constructor
    · cases a with
      | mk d => rw [show d = ([] : List Char) from h3.1]
    · cases b with
      | mk d => rw [show d = ([] : List Char) from h3.2]
  · rintro ⟨rfl, rfl⟩
    rfl

/-- `sub` occurs contiguously inside `s`. -/
def strContains (s sub : String) : Prop :=
  ∃ pre post : List Char, s.data = pre ++ sub.data ++ post

/-- C9 as stated: a message matching neither the personal nor the
conversational pattern makes the analyzer return "" with zero reads of the
chat-history store. -/
def claimC9Prop : Prop :=
  ∀ (msg uid aid : String) (store : List ChatMsg),
    testAlt personalQueries msg = false →
    testAlt conversationQueries msg = false →
    analyzeChatHistory msg uid aid store = ("", 0)

/-- C9 counterexample: for the non-matching message "hello" with both ids
present and a non-empty store, the analyzer still performs one storage
read (the source fetches the history before the pattern check). -/
theorem claimC9_false : ¬ claimC9Prop := by
  intro h
  have hx := h "hello" "u1" "a1" [⟨"u1", "a1", "hey"⟩] (by decide) (by decide)
  exact absurd hx (by decide)

/-- C9 amended: on a message matching neither pattern the analyzer does
return the empty string, but only after one read of the chat-history
store whenever both ids are non-empty; the read is skipped only when an id
is missing. -/
theorem analyzeChatHistory_fetch_first (msg uid aid : String)
    (store : List ChatMsg) :
    (uid = "" ∨ aid = "" → analyzeChatHistory msg uid aid store = ("", 0)) ∧
    (uid ≠ "" → aid ≠ "" →
      testAlt personalQueries msg = false →
      testAlt conversationQueries msg = false →
      analyzeChatHistory msg uid aid store = ("", 1)) := by
  constructor
  · intro h
    rcases h with h | h <;> simp [analyzeChatHistory, h]
  · intro huid haid hp hc
    have hids : (uid == "" || aid == "") = false := by
      simp [huid, haid]
    by_cases hst : store.isEmpty
    · simp [analyzeChatHistory, hids, hst]
    · simp [analyzeChatHistory, hids, hst, hp, hc]

/-- Closed witness for the amended C9 theorem at concrete inputs. -/
theorem analyzeChatHistory_fetch_first_witness :
    analyzeChatHistory "hello" "u1" "a1" [⟨"u1", "a1", "hey"⟩] = ("", 1) :=
  (analyzeChatHistory_fetch_first "hello" "u1" "a1" [⟨"u1", "a1", "hey"⟩]).2
    (by decide) (by decide) (by decide) (by decide)

/-- C7: crypto, news and weather each run exactly when their intent regex
matches (appending their labeled snippet), while web search runs exactly
when its regex matches, the pre-tool context is empty, and no other tool
fired; the final context is the pre-tool context followed by the fired
labeled snippets of the fired tools in source order. -/
theorem processQuery_dispatch (env : ToolEnv) (msg uid aid : String) :
    ((∃ s, ToolCall.cryptoCall s ∈ (processQuery env msg uid aid).2) ↔
      testAlt cryptoTerms msg = true) ∧
    ((∃ t k, ToolCall.newsCall t k ∈ (processQuery env msg uid aid).2) ↔
      testAlt newsTerms msg = true) ∧
    ((∃ l, ToolCall.weatherCall l ∈ (processQuery env msg uid aid).2) ↔
      testAlt weatherTerms msg = true) ∧
    ((∃ q, ToolCall.webCall q ∈ (processQuery env msg uid aid).2) ↔
      (testAlt webSearchTerms msg = true ∧ preContext env msg uid aid = "" ∧
        testAlt cryptoTerms msg = false ∧ testAlt newsTerms msg = false ∧
        testAlt weatherTerms msg = false)) ∧
    (processQuery env msg uid aid).1 =
      preContext env msg uid aid ++
      (if testAlt cryptoTerms msg then
        "Market info: " ++ env.cryptoOut "bitcoin" ++ "\n" else "") ++
      (if testAlt newsTerms msg then
        "News: " ++ env.newsOut none 3 ++ "\n" else "") ++
      (if testAlt weatherTerms msg then
        "Weather: " ++ env.weatherOut (resolvedLocation msg) ++ "\n" else "") ++
      (if testAlt webSearchTerms msg = true ∧ preContext env msg uid aid = "" ∧
          testAlt cryptoTerms msg = false ∧ testAlt newsTerms msg = false ∧
          testAlt weatherTerms msg = false then
        "Web search: " ++ env.webOut msg ++ "\n" else "") := by
  simp only [processQuery]
  generalize preContext env msg uid aid = P
  cases hc : testAlt cryptoTerms msg <;> cases hn : testAlt newsTerms msg <;>
    cases hw : testAlt weatherTerms msg
  case false.false.false =>
    by_cases hcond : testAlt webSearchTerms msg = true ∧ P = ""
    · obtain ⟨hws, hPe⟩ := hcond
      subst hPe
      simp [toolPhase, webSearchTool, hc, hn, hw, hws]
    · have hbool : (testAlt webSearchTerms msg && (P == "")) = false := by
        rw [Bool.and_eq_false_iff]
        rcases not_and_or.mp hcond with h | h
        · left
          simpa using h
        · right
          exact beq_eq_false_iff_ne.mpr h
      simp [toolPhase, hc, hn, hw, hbool, hcond]
  all_goals
    simp [toolPhase, getCryptoPrice, getNews, getWeather, webSearchTool,
      hc, hn, hw, append_eq_empty_iff, String.append_assoc]
  all_goals rfl

/-- C10: on any crypto-intent message the dispatch invokes the crypto
lookup through its default parameter, so the only crypto call in the trace
carries the symbol "bitcoin", and the "Market info:" snippet reports the
price fetched for "bitcoin". -/
theorem crypto_default_bitcoin (env : ToolEnv) (msg uid aid : String)
    (h : testAlt cryptoTerms msg = true) :
    ToolCall.cryptoCall "bitcoin" ∈ (processQuery env msg uid aid).2 ∧
    (∀ s, ToolCall.cryptoCall s ∈ (processQuery env msg uid aid).2 →
      s = "bitcoin") ∧
    strContains (processQuery env msg uid aid).1
      ("Market info: " ++ env.cryptoOut "bitcoin" ++ "\n") := by
  simp only [processQuery]
  generalize preContext env msg uid aid = P
  cases hn : testAlt newsTerms msg <;> cases hw : testAlt weatherTerms msg <;>
    simp [toolPhase, getCryptoPrice, getNews, getWeather, webSearchTool,
      h, hn, hw, append_eq_empty_iff, String.append_assoc, strContains,
      String.data_append, List.append_assoc] <;>
    exact ⟨P.data, _, rfl⟩

/-- Closed witness for C10 on the message "bitcoin price". -/
theorem crypto_default_bitcoin_witness :
    ToolCall.cryptoCall "bitcoin" ∈
      (processQuery
        ⟨[], "", none, none, fun _ => "p", fun _ _ => "n", fun _ => "w",
          fun _ => "s"⟩
        "bitcoin price" "" "").2 :=
  (crypto_default_bitcoin
    ⟨[], "", none, none, fun _ => "p", fun _ _ => "n", fun _ => "w",
      fun _ => "s"⟩
    "bitcoin price" "" "" (by decide)).1

end AgentChat
